import Mathlib

set_option maxHeartbeats 1000000

/-
Shallow embedding of the netclient synchronization engine
(`functions/mqhandlers.go`) and the peer proxy layer
(`nm-proxy/peer/peer.go`).

Handlers are embedded as pure functions from an environment record — the
message fields after decode plus the outcomes of the external collaborator
calls the handler makes (decrypt, unmarshal, version comparison, config
writes, daemon restart, ...) — to the list of observable effects the
handler performs, in program order.  Components of the repository that are
referenced but not part of the shown sources (the nm-proxy registry, the
proxy datapath start, the daemon restart semantics, the version
comparator) are modelled from the spec and marked as such in their doc
comments.
-/

/-- Observable effects of the mq handlers, one constructor per external
mutation or collaborator call that the handlers perform (in program
order).  Log lines are not modelled except `logNodeDeleted`, which is the
observable fallthrough of NodeUpdate's delete branch. -/
inductive Effect where
  | panicIndexOutOfRange
  | cacheInsert (network payload : String)
  | unsubscribeNode
  | leaveNetwork (network : String)
  | logNodeDeleted
  | updateNodeMap (network : String)
  | writeNodeConfig
  | ifaceConfigure
  | publishDone
  | tickerReset
  | useVersionAttempt (v : String)
  | hardRestart
  | setServerVersion (v : String)
  | writeServerConfig
  | updateHostPeers
  | writeNetclientConfig
  | setPeers (replace : Bool)
  | setEgressRoutes
  | spawnEndpointDetection
  | fwUpdate
  | clearRetained
  | publishAck
  | publishHostUpdateMsg
  | processPeerSignal
  | updateKeysCall
  | pullNow
  | updateServerRecord
  | setSubscriptionsCall
  | unsubscribeHost
  | deleteHostCfgCall
  | updateHostCall
  | ifaceClose
  | ifaceCreate
  | daemonRestart
  | pullAttempt
  | mqDisconnect
  | setupMQTT
deriving DecidableEq

/-- Go `strings.Split` with a single-character separator: splits the
character list at every occurrence of `sep`; the result always has one
more element than the number of separators and is never empty. -/
def splitOnChar (sep : Char) : List Char → List (List Char)
  | [] => [[]]
  | c :: cs =>
    match splitOnChar sep cs with
    | [] => [[]]
    | g :: gs => if c == sep then [] :: g :: gs else (c :: g) :: gs

/-- Join character-list segments with a single separator character
(the inverse of `splitOnChar` on separator-free segments). -/
def joinChar (sep : Char) : List (List Char) → List Char
  | [] => []
  | [l] => l
  | l :: l' :: ls => l ++ sep :: joinChar sep (l' :: ls)

/-- Go `strings.Split(s, "/")` as used by the topic parsers. -/
def goSplit (s : String) : List String := (splitOnChar '/' s.data).map String.mk

/-- Embeds `parseNetworkFromTopic` (mqhandlers.go:352): indexes segment 2
of the slash-split topic.  Go indexing out of range panics; the panic is
modelled as `none`. -/
def parseNetworkFromTopic (topic : String) : Option String := (goSplit topic).get? 2

/-- Embeds `parseServerFromTopic` (mqhandlers.go:356): indexes segment 3
of the slash-split topic; out-of-range modelled as `none`. -/
def parseServerFromTopic (topic : String) : Option String := (goSplit topic).get? 3

/-- Build a topic string from a list of segments, slash-separated. -/
def joinSlash (segs : List String) : String := String.mk (joinChar '/' (segs.map String.data))

/-- Helper for `containsSub`: whether the first list is a leading run of
the second. -/
def leadsWith : List Char → List Char → Bool
  | [], _ => true
  | _ :: _, [] => false
  | a :: as, b :: bs => a == b && leadsWith as bs

/-- Whether `sub` occurs contiguously inside the second list. -/
def containsSub (sub : List Char) : List Char → Bool
  | [] => leadsWith sub []
  | c :: t => leadsWith sub (c :: t) || containsSub sub t

/-- Go `strings.Contains(s, sub)`: `sub` is a contiguous substring of `s`.
Note the argument order: the containing string comes first, exactly as in
Go. -/
def strContains (s sub : String) : Bool := containsSub sub.data s.data

/-- Node-update actions (models.NODE_DELETE / NODE_FORCE_UPDATE /
NODE_NOOP / anything else). -/
inductive NodeAction where
  | delete
  | forceUpdate
  | noop
  | other
deriving DecidableEq

/-- Decoded node-update message: the fields of the unmarshalled node that
NodeUpdate's control flow reads. -/
structure NodeMsg where
  network : String
  action : NodeAction
deriving DecidableEq

/-- Environment of one NodeUpdate invocation: message data plus the
outcomes of the external calls the handler makes.  `cachedLast` is the
value `read(newNode.Network, lastNodeUpdate)` returns (the empty string
when no message was cached).  `leaveErr` is the error returned by
`LeaveNetwork` (`none` = success).  `ifaceDelta` is the result of
`wireguard.IfaceDelta`. -/
structure NodeUpdateEnv where
  topic : String
  decrypted : Option String
  parsed : Option NodeMsg
  cachedLast : String
  ifaceDelta : Bool
  leaveErr : Option String
  configureOk : Bool
deriving DecidableEq

/-- Embeds `NodeUpdate` (mqhandlers.go:32-98) as its effect trace:
parse topic, decrypt, unmarshal, payload-equality dedupe against the
per-network cache, then dispatch on the action.  The delete branch
unsubscribes, leaves the network, and tolerates a leave error exactly when
`strings.Contains("rpc error", err.Error())` holds — translated verbatim,
including the argument order of the Go call. -/
def nodeUpdate (e : NodeUpdateEnv) : List Effect :=
  match parseNetworkFromTopic e.topic with
  | none => [.panicIndexOutOfRange]
  | some network =>
    match e.decrypted with
    | none => []
    | some data =>
      match e.parsed with
      | none => []
      | some node =>
        if e.cachedLast == data then []
        else
          Effect.cacheInsert node.network data ::
          match node.action with
          | .delete =>
            [.unsubscribeNode, .leaveNetwork node.network] ++
            (match e.leaveErr with
             | none => [.logNodeDeleted]
             | some msg => if strContains "rpc error" msg then [.logNodeDeleted] else [])
          | a =>
            let delta := e.ifaceDelta || a == NodeAction.forceUpdate
            [.updateNodeMap network, .writeNodeConfig, .ifaceConfigure] ++
            (if e.configureOk then (if delta then [.publishDone] else []) else [])

/-- How a handler invocation left off: fell through to the following code
(`finished`), executed a `return` (`returned`), or the process died inside
a collaborator call (`dead`). -/
inductive CoreOutcome where
  | finished
  | returned
  | dead
deriving DecidableEq

/-- Shared inputs of the version-check-and-merge code that appears, once
each, in `HostPeerUpdate` (mqhandlers.go:128-158) and `mqFallbackPull`
(mqhandlers.go:441-471): the client version (`config.Version`), the
message's declared server version, the stored `server.Version`, the
outcome of the single `versionLessThan` call (`none` = inconclusive
error — `versionLessThan` lives outside the shown sources, so only its
result is modelled), whether host auto-update is enabled, whether
`UseVersion` succeeds, whether the `daemon.HardRestart` call returns.
`hardRestartReturns` is modelled from the spec: a hard restart ends the
current process's execution (process-terminal), but the call can also
fail and return an error, as handled at its `HostUpdate` call site
(mqhandlers.go:210). -/
structure SyncCoreEnv where
  clientVersion : String
  serverVersion : String
  storedServerVersion : String
  vltResult : Option Bool
  autoUpdate : Bool
  useVersionOk : Bool
  hardRestartReturns : Bool
  replacePeers : Bool
  egressNonEmpty : Bool
deriving DecidableEq

/-- Embeds the unconditional merge tail of `HostPeerUpdate`
(mqhandlers.go:146-158): persist the server version when it differs from
the stored one, merge peers, write config, apply the peer set, egress
routes when non-empty, spawn endpoint detection, firewall update. -/
def hpuMergeFx (e : SyncCoreEnv) : List Effect :=
  (if e.serverVersion == e.storedServerVersion then []
   else [.setServerVersion e.serverVersion, .writeServerConfig]) ++
  [.updateHostPeers, .writeNetclientConfig, .setPeers e.replacePeers] ++
  (if e.egressNonEmpty then [.setEgressRoutes] else []) ++
  [.spawnEndpointDetection, .fwUpdate]

/-- Embeds `HostPeerUpdate`'s version check plus merge tail
(mqhandlers.go:128-158): when the declared server version differs from
the client version, an inconclusive `versionLessThan` returns from the
handler; a conclusive "client behind" with auto-update enabled attempts
`UseVersion` and, on its success, `daemon.HardRestart` — with no `return`
after the restart call, so control falls through to the merge tail
whenever the restart call returns. -/
def hostPeerUpdateCore (e : SyncCoreEnv) : List Effect × CoreOutcome :=
  if e.serverVersion == e.clientVersion then (hpuMergeFx e, .finished)
  else
    match e.vltResult with
    | none => ([], .returned)
    | some vlt =>
      if vlt && e.autoUpdate then
        if e.useVersionOk then
          if e.hardRestartReturns then
            (Effect.useVersionAttempt e.serverVersion :: Effect.hardRestart :: hpuMergeFx e,
             .finished)
          else ([.useVersionAttempt e.serverVersion, .hardRestart], .dead)
        else (Effect.useVersionAttempt e.serverVersion :: hpuMergeFx e, .finished)
      else (hpuMergeFx e, .finished)

/-- Embeds the merge tail of `mqFallbackPull` (mqhandlers.go:458-471),
translated from that function's own body: persist a differing server
version, merge peers, write config, apply the peer set, egress routes
when non-empty, spawn endpoint detection, firewall update. -/
def mqfpMergeFx (e : SyncCoreEnv) : List Effect :=
  (if e.serverVersion == e.storedServerVersion then []
   else [.setServerVersion e.serverVersion, .writeServerConfig]) ++
  [.updateHostPeers, .writeNetclientConfig, .setPeers e.replacePeers] ++
  (if e.egressNonEmpty then [.setEgressRoutes] else []) ++
  [.spawnEndpointDetection, .fwUpdate]

/-- Embeds `mqFallbackPull`'s version check plus merge tail
(mqhandlers.go:441-471), translated from that function's own body (the
source duplicates the `HostPeerUpdate` logic verbatim). -/
def mqFallbackPullCore (e : SyncCoreEnv) : List Effect × CoreOutcome :=
  if e.serverVersion == e.clientVersion then (mqfpMergeFx e, .finished)
  else
    match e.vltResult with
    | none => ([], .returned)
    | some vlt =>
      if vlt && e.autoUpdate then
        if e.useVersionOk then
          if e.hardRestartReturns then
            (Effect.useVersionAttempt e.serverVersion :: Effect.hardRestart :: mqfpMergeFx e,
             .finished)
          else ([.useVersionAttempt e.serverVersion, .hardRestart], .dead)
        else (Effect.useVersionAttempt e.serverVersion :: mqfpMergeFx e, .finished)
      else (mqfpMergeFx e, .finished)

/-- Decoded peer-list-update message (models.HostPeerUpdate): the fields
`HostPeerUpdate` reads for control flow. -/
structure PeerUpdateMsg where
  serverVersion : String
  replacePeers : Bool
  egressNonEmpty : Bool
deriving DecidableEq

/-- Environment of one HostPeerUpdate invocation.  `lastPayload` records
the previously processed peer-update payload for the same network: the
source keeps no such cache for peer updates (only `NodeUpdate` has a
dedupe cache), so no field of the handler reads it — it is carried here
purely so the dedupe claim can be stated. -/
structure HostPeerEnv where
  nodesExist : Bool
  topic : String
  serverFound : Bool
  serverIsPro : Bool
  tickerNonNil : Bool
  storedServerVersion : String
  clientVersion : String
  decrypted : Option String
  parsed : Option PeerUpdateMsg
  vltResult : Option Bool
  autoUpdate : Bool
  useVersionOk : Bool
  hardRestartReturns : Bool
  lastPayload : Option String
deriving DecidableEq

/-- Assemble the shared version-and-merge inputs from a HostPeerUpdate
environment and its decoded message. -/
def hostPeerEnvCore (e : HostPeerEnv) (msg : PeerUpdateMsg) : SyncCoreEnv :=
  { clientVersion := e.clientVersion
    serverVersion := msg.serverVersion
    storedServerVersion := e.storedServerVersion
    vltResult := e.vltResult
    autoUpdate := e.autoUpdate
    useVersionOk := e.useVersionOk
    hardRestartReturns := e.hardRestartReturns
    replacePeers := msg.replacePeers
    egressNonEmpty := msg.egressNonEmpty }

/-- Embeds `HostPeerUpdate` (mqhandlers.go:101-159) as its effect trace:
reject when no nodes exist, parse the server from the topic (panic on a
short topic), look up the server, decrypt, unmarshal, reset the
pro-feature connection ticker, then the version check and unconditional
merge tail.  There is no payload-equality dedupe anywhere in this
handler. -/
def hostPeerUpdate (e : HostPeerEnv) : List Effect :=
  if !e.nodesExist then []
  else
    match parseServerFromTopic e.topic with
    | none => [.panicIndexOutOfRange]
    | some _serverName =>
      if !e.serverFound then []
      else
        match e.decrypted with
        | none => []
        | some _data =>
          match e.parsed with
          | none => []
          | some msg =>
            (if e.serverIsPro && e.tickerNonNil then [Effect.tickerReset] else []) ++
            (hostPeerUpdateCore (hostPeerEnvCore e msg)).1

/-- Embeds `mqFallbackPull` (mqhandlers.go:434-485) as effect trace plus
a flag recording whether the process died inside the pull application
(hard restart that did not return).  After the core merge, when control
reaches the end of the function and the pull requested an interface
reset, the interface is closed, recreated, configured (a configure error
returns early) and the peer set reapplied. -/
def mqFallbackPullFx (serverFound : Bool) (e : SyncCoreEnv)
    (resetInterface configureOk : Bool) : List Effect × Bool :=
  if !serverFound then ([], false)
  else
    match mqFallbackPullCore e with
    | (fx, .dead) => (fx, true)
    | (fx, .returned) => (fx, false)
    | (fx, .finished) =>
      (fx ++
        (if resetInterface then
          [Effect.ifaceClose, Effect.ifaceCreate, Effect.ifaceConfigure] ++
            (if configureOk then [Effect.setPeers false] else [])
        else []), false)

/-- Environment of one fallback-reconciler tick (the body of one
`mqFallbackTicker.C` arm, mqhandlers.go:405-428): the control-channel
state (client non-nil, connection open, connected), whether
`config.CurrServer` is empty, the outcome of the single `Pull` call, the
pull response data, and the server lookups made inside `mqFallbackPull`
and before the reconnection attempt. -/
structure FallbackTickEnv where
  mqNonNil : Bool
  mqConnOpen : Bool
  mqConnected : Bool
  currServerEmpty : Bool
  pullOk : Bool
  resetInterface : Bool
  core : SyncCoreEnv
  pullServerFound : Bool
  reconnectServerFound : Bool
  configureOk : Bool
deriving DecidableEq

/-- Embeds one tick of `mqFallback` (mqhandlers.go:405-428): when the mq
client is non-nil, open and connected, or no coordinator is configured
(`config.CurrServer == ""`), the tick does nothing.  Otherwise it makes
exactly one `Pull` attempt; on pull failure it only logs; on success it
runs `mqFallbackPull` and then — unless the process died inside it —
looks the server up again and re-attempts the mqtt connection
(disconnecting the old client first when non-nil). -/
def mqFallbackTick (t : FallbackTickEnv) : List Effect :=
  if (t.mqNonNil && t.mqConnOpen && t.mqConnected) || t.currServerEmpty then []
  else
    Effect.pullAttempt ::
      (if !t.pullOk then []
       else
         let r := mqFallbackPullFx t.pullServerFound t.core t.resetInterface t.configureOk
         r.1 ++
           (if r.2 then []
            else if !t.reconnectServerFound then []
            else (if t.mqNonNil then [Effect.mqDisconnect] else []) ++ [Effect.setupMQTT]))

/-- Host-update actions (models.Upgrade / JoinHostToNetwork / DeleteHost /
UpdateHost / RequestAck / SignalHost / UpdateKeys / RequestPull / other). -/
inductive HostAction where
  | upgrade
  | joinHostToNetwork
  | deleteHost
  | updateHostAction
  | requestAck
  | signalHost
  | updateKeysAction
  | requestPull
  | unknown
deriving DecidableEq

/-- Environment of one HostUpdate invocation: guards, decoded action, and
outcomes of the external calls the dispatch makes.  `uhResetInterface`,
`uhRestartDaemon`, `uhSendHostUpdate` are the three flags
`config.UpdateHost` reports back for the update-host action. -/
structure HostUpdateEnv where
  serverFound : Bool
  payloadEmpty : Bool
  decryptOk : Bool
  parseOk : Bool
  action : HostAction
  nodeNetwork : String
  clientVersion : String
  storedServerVersion : String
  vltResult : Option Bool
  useVersionOk : Bool
  hardRestartReturns : Bool
  uhResetInterface : Bool
  uhRestartDaemon : Bool
  uhSendHostUpdate : Bool
  writeNetclientOk : Bool
  configureOk : Bool
deriving DecidableEq

/-- Result of one branch of `HostUpdate`'s action switch: its effects,
how it left off, and the flags it set. -/
structure HUBranchOut where
  fx : List Effect
  outcome : CoreOutcome
  resetInterface : Bool
  restartDaemon : Bool
  clearMsg : Bool

/-- Embeds the action switch of `HostUpdate` (mqhandlers.go:186-266).
The upgrade branch (187-212) compares `config.Version` against the stored
`server.Version`; a conclusive "client up-to-date" result breaks with no
upgrade, while an inconclusive comparison (error) proceeds with the
upgrade anyway; after a successful `UseVersion` the hard restart's error,
if it returns one, is only logged.  The unknown action returns without
reaching the common tail. -/
def hostUpdateBranch (e : HostUpdateEnv) : HUBranchOut :=
  match e.action with
  | .upgrade =>
    match e.vltResult with
    | some false => ⟨[.clearRetained], .finished, false, false, false⟩
    | _ =>
      if !e.useVersionOk then
        ⟨[.clearRetained, .useVersionAttempt e.storedServerVersion], .finished,
          false, false, false⟩
      else if e.hardRestartReturns then
        ⟨[.clearRetained, .useVersionAttempt e.storedServerVersion, .hardRestart], .finished,
          false, false, false⟩
      else
        ⟨[.clearRetained, .useVersionAttempt e.storedServerVersion, .hardRestart], .dead,
          false, false, false⟩
  | .joinHostToNetwork =>
    ⟨[.updateNodeMap e.nodeNetwork, .updateServerRecord, .writeNodeConfig, .writeServerConfig,
      .clearRetained, .publishAck, .setSubscriptionsCall], .finished, true, false, false⟩
  | .deleteHost =>
    ⟨[.clearRetained, .unsubscribeHost, .deleteHostCfgCall, .writeNodeConfig,
      .writeServerConfig], .finished, false, true, false⟩
  | .updateHostAction =>
    ⟨Effect.updateHostCall :: (if e.uhSendHostUpdate then [Effect.publishHostUpdateMsg] else []),
      .finished, e.uhResetInterface, e.uhRestartDaemon, true⟩
  | .requestAck => ⟨[.clearRetained, .publishAck], .finished, false, false, false⟩
  | .signalHost => ⟨[.clearRetained, .processPeerSignal], .finished, false, false, false⟩
  | .updateKeysAction => ⟨[.clearRetained, .updateKeysCall], .finished, false, false, false⟩
  | .requestPull => ⟨[.clearRetained, .pullNow], .finished, false, false, false⟩
  | .unknown => ⟨[], .returned, false, false, false⟩

/-- Embeds `HostUpdate` (mqhandlers.go:162-293): guards, action dispatch,
then the common tail — persist host config (failure aborts), daemon
restart (preceded by a retained-message clear when requested) superseding
interface reset, otherwise close/recreate/configure the interface and
reapply the peer set. -/
def hostUpdate (e : HostUpdateEnv) : List Effect :=
  if !e.serverFound then []
  else if e.payloadEmpty then []
  else if !e.decryptOk then []
  else if !e.parseOk then []
  else
    let b := hostUpdateBranch e
    match b.outcome with
    | .returned => b.fx
    | .dead => b.fx
    | .finished =>
      b.fx ++ [Effect.writeNetclientConfig] ++
      (if !e.writeNetclientOk then []
       else if b.restartDaemon then
         (if b.clearMsg then [Effect.clearRetained] else []) ++ [Effect.daemonRestart]
       else if b.resetInterface then
         [Effect.ifaceClose, Effect.ifaceCreate, Effect.ifaceConfigure] ++
           (if e.configureOk then [Effect.setPeers false] else [])
       else [])

/-- IP addresses as Go `net.IP` after normalization: a 4-byte (or
4-in-6-mapped) address is `v4` with its four octets; anything else is
`v6` with its sixteen bytes.  Go's `IP.String()` renders a `v4` as a
dotted quad (no colons) and a `v6` in colon-separated hex (always at
least two colons, whether compressed with "::" or written out with
seven). -/
inductive IP where
  | v4 (a b c d : Nat)
  | v6 (bytes : List Nat)
deriving DecidableEq

/-- The raw bytes of an address (4 for `v4`, the byte list for `v6`). -/
def IP.bytes : IP → List Nat
  | .v4 a b c d => [a, b, c, d]
  | .v6 bs => bs

/-- Go `net.IP.IsMulticast`: first octet 224-239 for v4, first byte 0xff
for v6. -/
def IP.isMulticast : IP → Bool
  | .v4 a _ _ _ => 224 ≤ a && a ≤ 239
  | .v6 bs => bs.head? == some 0xff

/-- Go `net.IP.IsLinkLocalUnicast`: 169.254.0.0/16 for v4, fe80::/10 for
v6. -/
def IP.isLinkLocalUnicast : IP → Bool
  | .v4 a b _ _ => a == 169 && b == 254
  | .v6 bs => bs.head? == some 0xfe && ((bs.get? 1).getD 0) &&& 0xc0 == 0x80

/-- Go `net.IP.IsPrivate`: 10.0.0.0/8, 172.16.0.0/12, 192.168.0.0/16 for
v4; fc00::/7 for v6. -/
def IP.isPrivate : IP → Bool
  | .v4 a b _ _ => a == 10 || (a == 172 && b &&& 0xf0 == 16) || (a == 192 && b == 168)
  | .v6 bs => ((bs.head?).getD 0) &&& 0xfe == 0xfc

/-- Go `net.IP.IsLoopback`: 127.0.0.0/8 for v4, ::1 for v6. -/
def IP.isLoopback : IP → Bool
  | .v4 a _ _ _ => a == 127
  | .v6 bs => bs == [0, 0, 0, 0, 0, 0, 0, 0, 0, 0, 0, 0, 0, 0, 0, 1]

/-- Embeds `strings.Contains(peerIP.String(), "127.0.0.")`
(mqhandlers.go:318).  A dotted quad "a.b.c.d" (octets at most three
digits) contains the eight-character substring "127.0.0." — which spans
all three dots — exactly when a = 127, b = 0 and c = 0; a v6 rendering is
colon-separated hex with no dots, so it never contains the substring. -/
def IP.stringHas127Dot0Dot0 : IP → Bool
  | .v4 a b c _ => a == 127 && b == 0 && c == 0
  | .v6 _ => false

/-- Embeds `strings.Count(peerIP.String(), ":") >= 2` (mqhandlers.go:320):
a dotted quad has zero colons; every Go rendering of a v6 address has at
least two. -/
def IP.renderedWithColons : IP → Bool
  | .v4 _ _ _ _ => false
  | .v6 _ => true

/-- Go `net.IPNet`: a base address and a byte mask (as stored in
wgtypes allowed-IPs entries). -/
structure IPNet where
  ip : IP
  mask : List Nat
deriving DecidableEq

/-- Go `net.IPNet.Contains`: after normalizing both sides to the same
family, each candidate byte masked with the mask byte must equal the
masked network byte; addresses of a different length never match. -/
def IPNet.containsIP (n : IPNet) (ip : IP) : Bool :=
  let ipb := ip.bytes
  let nb := n.ip.bytes
  ipb.length == nb.length && n.mask.length == ipb.length &&
    (List.zip (List.zip ipb nb) n.mask).all fun p => p.1.1 &&& p.2 == p.1.2 &&& p.2

/-- Go `*net.UDPAddr` (the zone field is never read by this code): the
IP slice may be nil. -/
structure GoUDPAddr where
  ip : Option IP
  port : Nat
deriving DecidableEq

/-- The fields of `wgtypes.PeerConfig` this code reads: public key
(rendered as its string form, the join key everywhere), nullable
endpoint, optional keepalive (seconds), and allowed-IP ranges. -/
structure PeerConfig where
  publicKey : String
  endpoint : Option GoUDPAddr
  persistentKeepalive : Option Nat
  allowedIPs : List IPNet
deriving DecidableEq

/-- Modelled from the spec: the proxy's well-known listening port
(`models.NmProxyPort`; the nm-proxy models package is outside the shown
sources — the claims only need it to be one fixed constant). -/
def NmProxyPort : Nat := 51722

/-- The per-peer proxy parameters stored in a Connection
(`models.ProxyConfig`): local and remote identity keys, the
externally-attached-client flag, defaulted keepalive, network name, the
resolved peer endpoint and the local proxy socket address that
`proxy.Start` establishes.  The live handles (interface pointer, socket)
are not data and are not modelled. -/
structure ProxyConfig where
  localKey : String
  remoteKey : String
  isExtClient : Bool
  persistentKeepalive : Nat
  network : String
  peerEndpoint : Option GoUDPAddr
  localConnAddr : Option GoUDPAddr
deriving DecidableEq

/-- The network-keyed registry entry (`models.Conn`): peer identity,
relay flag and endpoint, attachment flag, and its ProxyConfig.  The
mutex and the stop/reset closures are live handles, not data. -/
structure Conn where
  key : String
  isRelayed : Bool
  relayedEndpoint : Option GoUDPAddr
  isAttachedExtClient : Bool
  config : ProxyConfig
deriving DecidableEq

/-- The hash-keyed registry entry (`models.RemotePeer`): interface name,
peer key, attachment flags, resolved endpoint and local proxy socket
address. -/
structure RemotePeer where
  interfaceName : String
  peerKey : String
  isExtClient : Bool
  endpoint : Option GoUDPAddr
  isAttachedExtClient : Bool
  localConnAddr : Option GoUDPAddr
deriving DecidableEq

/-- Modelled from the spec: the process-wide Proxy Registry
(`config.GetGlobalCfg()`, outside the shown sources; contract in spec
§4.1): the global proxy-enabled flag, the network-keyed Connection table,
the hash-keyed RemotePeer table and the external-client records, each an
insert-or-replace map keyed as the spec states. -/
structure GlobalCfg where
  proxyStatus : Bool
  networkPeers : String → String → Option Conn
  peersByHash : String → Option RemotePeer
  extClients : String → Option RemotePeer

/-- Modelled from the spec: `SavePeer(network, conn)` inserts/replaces
the entry keyed by network plus peer identity. -/
def savePeer (cfg : GlobalCfg) (network : String) (c : Conn) : GlobalCfg :=
  { cfg with networkPeers := fun n k =>
      if n == network && k == c.key then some c else cfg.networkPeers n k }

/-- Modelled from the spec: `GetPeer(network, identity)` looks up the
network-keyed entry. -/
def getPeer (cfg : GlobalCfg) (network key : String) : Option Conn :=
  cfg.networkPeers network key

/-- Modelled from the spec: `SavePeerByHash` inserts/replaces the entry
of the secondary index keyed by the peer-identity hash (the hash of a
fixed key is modelled by the key itself, an injective stand-in). -/
def savePeerByHash (cfg : GlobalCfg) (r : RemotePeer) : GlobalCfg :=
  { cfg with peersByHash := fun k =>
      if k == r.peerKey then some r else cfg.peersByHash k }

/-- Modelled from the spec: lookup in the hash-keyed secondary index. -/
def getPeerByHash (cfg : GlobalCfg) (key : String) : Option RemotePeer :=
  cfg.peersByHash key

/-- Modelled from the spec: `SaveExtClientInfo` records the
external-client metadata for an attached external client. -/
def saveExtClientInfo (cfg : GlobalCfg) (r : RemotePeer) : GlobalCfg :=
  { cfg with extClients := fun k =>
      if k == r.peerKey then some r else cfg.extClients k }

/-- Go `net.ResolveUDPAddr("udp", fmt.Sprintf("%s:%d", ip, port))` as
called at peer.go:47: a literal IP resolves to itself with the given
port; a nil `net.IP` renders as "<nil>", which fails to resolve. -/
def resolveUDPAddr (ip : Option IP) (port : Nat) : Option GoUDPAddr :=
  match ip with
  | none => none
  | some i => some { ip := some i, port := port }

/-- Embeds `AddNewPeer` (peer.go:18-85).  `startResult` is the outcome of
`p.Start()` — the datapath start is outside the shown sources, modelled
from the spec: on success it starts the UDP relay/listener pair and
establishes the local proxy socket address it returns here; on failure
the error propagates.  The function returns the (possibly updated)
registry together with the error, so that "no side effects on failure"
is a provable statement rather than a typing artifact.  A nil peer
endpoint would make the Go code panic at the unconditional dereferences
(peer.go:36,39); the panic is modelled as an erroring outcome that
registers nothing. -/
def AddNewPeer (cfg : GlobalCfg) (ifaceName localKey network : String) (peer : PeerConfig)
    (isRelayed isExtClient isAttachedExtClient : Bool)
    (relayTo : Option GoUDPAddr) (startResult : Option GoUDPAddr) :
    GlobalCfg × Option String :=
  let keepalive := peer.persistentKeepalive.getD 25
  match peer.endpoint with
  | none => (cfg, some "panic: nil peer endpoint")
  | some ep =>
    let peerPort := if isExtClient && isAttachedExtClient then ep.port else NmProxyPort
    let step : Except String (Option IP) :=
      if isRelayed then
        match relayTo with
        | none => Except.error "relay endpoint is nil"
        | some rt => Except.ok rt.ip
      else Except.ok ep.ip
    match step with
    | .error msg => (cfg, some msg)
    | .ok epIP =>
      match resolveUDPAddr epIP peerPort with
      | none => (cfg, some "address resolution failed")
      | some peerEndpoint =>
        match startResult with
        | none => (cfg, some "proxy start failed")
        | some localAddr =>
          let pConf : ProxyConfig :=
            { localKey := localKey
              remoteKey := peer.publicKey
              isExtClient := isExtClient
              persistentKeepalive := keepalive
              network := network
              peerEndpoint := some peerEndpoint
              localConnAddr := some localAddr }
          let connConf : Conn :=
            { key := peer.publicKey
              isRelayed := isRelayed
              relayedEndpoint := relayTo
              isAttachedExtClient := isAttachedExtClient
              config := pConf }
          let rPeer : RemotePeer :=
            { interfaceName := ifaceName
              peerKey := peer.publicKey
              isExtClient := isExtClient
              endpoint := some peerEndpoint
              isAttachedExtClient := isAttachedExtClient
              localConnAddr := some localAddr }
          let cfg1 := savePeer cfg network connConf
          let cfg2 := savePeerByHash cfg1 rPeer
          let cfg3 := if isAttachedExtClient then saveExtClientInfo cfg2 rPeer else cfg2
          (cfg3, none)

/-- Embeds `SetPeersEndpointToProxy` (peer.go:87-99): when proxying is
globally disabled the list is returned unchanged; otherwise each peer
with a network-keyed registry entry gets its endpoint replaced by the
entry's local proxy socket address, and peers without an entry pass
through unchanged. -/
def SetPeersEndpointToProxy (cfg : GlobalCfg) (network : String)
    (peers : List PeerConfig) : List PeerConfig :=
  if !cfg.proxyStatus then peers
  else
    peers.map fun p =>
      match getPeer cfg network p.publicKey with
      | some conn => { p with endpoint := conn.config.localConnAddr }
      | none => p

/-- One advertised interface of a peer (`models.Iface`): name and the IP
of its address (nil-able). -/
structure IfaceInfo where
  name : String
  addrIP : Option IP
deriving DecidableEq

/-- Per-host out-of-band info (`models.HostNetworkInfo` entry): static
flag, advertised listen port, candidate interfaces. -/
structure HostNetworkInfo where
  isStatic : Bool
  listenPort : Nat
  interfaces : List IfaceInfo
deriving DecidableEq

/-- One spawned probe task: the arguments `handleEndpointDetection`
passes to `networking.FindBestEndpoint`. -/
structure Probe where
  ip : IP
  publicKey : String
  listenPort : Nat
deriving DecidableEq

/-- Embeds `getAllAllowedIPs` (mqhandlers.go:360-371): the concatenation
of every peer's allowed-IP ranges (the empty list when there are none). -/
def getAllAllowedIPs (peers : List PeerConfig) : List IPNet :=
  peers.flatMap PeerConfig.allowedIPs

/-- Embeds `isAddressInPeers` (mqhandlers.go:373-383): whether any of the
ranges contains the address. -/
def isAddressInPeers (ip : IP) (cidrs : List IPNet) : Bool :=
  cidrs.any fun c => c.containsIP ip

/-- Embeds `handleEndpointDetection` (mqhandlers.go:296-337) as the list
of probe tasks it spawns.  `detectedAlready` is
`wireguard.EndpointDetectedAlready` and `isBridgeNetwork` is
`ncutils.IsBridgeNetwork`, both outside the shown sources and taken as
oracle parameters.  For each peer not already detected, present in the
host-info map and not static, each interface with a non-nil address that
is not a bridge, does not render with the "127.0.0." prefix, is not
multicast, not v6 link-local, and not inside the update's allowed-IP
ranges spawns a probe exactly when the address is private. -/
def handleEndpointDetection (detectedAlready isBridgeNetwork : String → Bool)
    (peers : List PeerConfig) (peerInfoMap : String → Option HostNetworkInfo) :
    List Probe :=
  let currentCidrs := getAllAllowedIPs peers
  peers.flatMap fun peer =>
    if detectedAlready peer.publicKey then []
    else
      match peerInfoMap peer.publicKey with
      | none => []
      | some info =>
        if info.isStatic then []
        else
          info.interfaces.filterMap fun ifc =>
            match ifc.addrIP with
            | none => none
            | some ip =>
              if isBridgeNetwork ifc.name then none
              else if ip.stringHas127Dot0Dot0 || ip.isMulticast ||
                  (ip.isLinkLocalUnicast && ip.renderedWithColons) ||
                  isAddressInPeers ip currentCidrs then none
              else if ip.isPrivate then
                some { ip := ip, publicKey := peer.publicKey, listenPort := info.listenPort }
              else none

/-- A peer-list-update environment whose decrypted payload equals the
previously processed payload for the same network (every version field
equal, so no upgrade logic interferes). -/
def c1DupEnv : HostPeerEnv :=
  { nodesExist := true
    topic := "peers/host/hostid/srv1"
    serverFound := true
    serverIsPro := false
    tickerNonNil := false
    storedServerVersion := "v0.18.0"
    clientVersion := "v0.18.0"
    decrypted := some "peer-update-payload"
    parsed := some { serverVersion := "v0.18.0", replacePeers := true, egressNonEmpty := false }
    vltResult := some false
    autoUpdate := true
    useVersionOk := true
    hardRestartReturns := true
    lastPayload := some "peer-update-payload" }

/-- A node-update delete whose LeaveNetwork call fails with a genuine
rpc error message. -/
def c5RpcEnv : NodeUpdateEnv :=
  { topic := "update/srv/netA"
    decrypted := some "payload5"
    parsed := some { network := "netA", action := NodeAction.delete }
    cachedLast := ""
    ifaceDelta := false
    leaveErr := some "rpc error: node not found"
    configureOk := true }

/-- A node-update delete whose LeaveNetwork call fails with the message
"error", which is not an rpc error but is a substring of "rpc error". -/
def c5SubEnv : NodeUpdateEnv :=
  { topic := "update/srv/netA"
    decrypted := some "payload5"
    parsed := some { network := "netA", action := NodeAction.delete }
    cachedLast := ""
    ifaceDelta := false
    leaveErr := some "error"
    configureOk := true }

/-- A node-update environment whose decrypted payload equals the cached
payload for its network. -/
def c1CacheHitEnv : NodeUpdateEnv :=
  { topic := "update/srv/netA"
    decrypted := some "same-node-payload"
    parsed := some { network := "netA", action := NodeAction.noop }
    cachedLast := "same-node-payload"
    ifaceDelta := true
    leaveErr := none
    configureOk := true }

/-- A peer-list-update environment meeting every upgrade condition, where
the hard-restart call fails and therefore returns. -/
def c6RestartReturnsEnv : HostPeerEnv :=
  { nodesExist := true
    topic := "peers/host/hostid/srv1"
    serverFound := true
    serverIsPro := false
    tickerNonNil := false
    storedServerVersion := "v0.18.0"
    clientVersion := "v0.18.0"
    decrypted := some "payload6"
    parsed := some { serverVersion := "v0.19.0", replacePeers := true, egressNonEmpty := false }
    vltResult := some true
    autoUpdate := true
    useVersionOk := true
    hardRestartReturns := true
    lastPayload := none }

/-- A peer-list-update environment meeting every upgrade condition, where
the hard restart terminates the process (does not return). -/
def c6TerminalEnv : HostPeerEnv :=
  { nodesExist := true
    topic := "peers/host/hostid/srv1"
    serverFound := true
    serverIsPro := true
    tickerNonNil := true
    storedServerVersion := "v0.18.0"
    clientVersion := "v0.18.0"
    decrypted := some "payload6"
    parsed := some { serverVersion := "v0.19.0", replacePeers := true, egressNonEmpty := false }
    vltResult := some true
    autoUpdate := true
    useVersionOk := true
    hardRestartReturns := false
    lastPayload := none }

/-- An empty Proxy Registry with proxying globally enabled. -/
def regEmpty : GlobalCfg :=
  { proxyStatus := true
    networkPeers := fun _ _ => none
    peersByHash := fun _ => none
    extClients := fun _ => none }

/-- A peer whose advertised endpoint has a distinctive port (different
from the proxy's well-known port). -/
def peerA : PeerConfig :=
  { publicKey := "AAA"
    endpoint := some { ip := some (IP.v4 1 2 3 4), port := 555 }
    persistentKeepalive := none
    allowedIPs := [] }

/-- A local proxy socket address as established by a successful datapath
start. -/
def localA : GoUDPAddr := { ip := some (IP.v4 127 0 0 1), port := 40001 }

/-- A relay target address. -/
def relayA : GoUDPAddr := { ip := some (IP.v4 9 9 9 9), port := 777 }

/-- Oracle returning false for every key (no endpoint detected yet, no
interface is a bridge). -/
def oracleFalse : String → Bool := fun _ => false

/-- Host-info map holding one non-static host with one private-address
interface. -/
def c9Pim : String → Option HostNetworkInfo := fun s =>
  if s == "PK9" then
    some { isStatic := false
           listenPort := 51821
           interfaces := [{ name := "eth0", addrIP := some (IP.v4 10 0 0 5) }] }
  else none

/-- Peer list for the detection witness. -/
def c9Peers : List PeerConfig :=
  [{ publicKey := "PK9", endpoint := none, persistentKeepalive := none, allowedIPs := [] }]

/-- The probe the detection witness expects. -/
def c9Probe : Probe := { ip := IP.v4 10 0 0 5, publicKey := "PK9", listenPort := 51821 }

/-- A host-update upgrade whose version comparison is inconclusive. -/
def c4UpgradeEnv : HostUpdateEnv :=
  { serverFound := true
    payloadEmpty := false
    decryptOk := true
    parseOk := true
    action := HostAction.upgrade
    nodeNetwork := "net1"
    clientVersion := "v0.17.x-custom"
    storedServerVersion := "v0.18.0"
    vltResult := none
    useVersionOk := true
    hardRestartReturns := true
    uhResetInterface := false
    uhRestartDaemon := false
    uhSendHostUpdate := false
    writeNetclientOk := true
    configureOk := true }

/-- A host-update upgrade whose version comparison conclusively reports
the client up-to-date. -/
def c4UpToDateEnv : HostUpdateEnv :=
  { c4UpgradeEnv with vltResult := some false }

/-- Peer-update version-phase inputs with an inconclusive comparison. -/
def c4CoreEnv : SyncCoreEnv :=
  { clientVersion := "v0.17.x-custom"
    serverVersion := "v0.18.0"
    storedServerVersion := "v0.18.0"
    vltResult := none
    autoUpdate := true
    useVersionOk := true
    hardRestartReturns := true
    replacePeers := false
    egressNonEmpty := false }

/-- Peer-update version-phase inputs with a conclusive not-behind
comparison. -/
def c4CoreUpToDateEnv : SyncCoreEnv :=
  { c4CoreEnv with vltResult := some false }

/-- A fallback-tick environment with the control channel down, a
coordinator configured, and a successful pull. -/
def c3TickEnv : FallbackTickEnv :=
  { mqNonNil := true
    mqConnOpen := false
    mqConnected := false
    currServerEmpty := false
    pullOk := true
    resetInterface := true
    core := c4CoreUpToDateEnv
    pullServerFound := true
    reconnectServerFound := true
    configureOk := true }

/-- A fallback-tick environment with the control channel up. -/
def c3ConnectedEnv : FallbackTickEnv :=
  { c3TickEnv with mqConnOpen := true, mqConnected := true }

/-! ## Helper lemmas -/

theorem splitOnChar_cons (sep c : Char) (cs : List Char) :
    splitOnChar sep (c :: cs) =
      match splitOnChar sep cs with
      | [] => [[]]
      | g :: gs => if c == sep then [] :: g :: gs else (c :: g) :: gs := rfl

theorem splitOnChar_ne_nil (sep : Char) (l : List Char) : splitOnChar sep l ≠ [] := by
  cases l with
  | nil => simp [splitOnChar]
  | cons c cs =>
    simp only [splitOnChar]
    cases splitOnChar sep cs with
    | nil => simp
    | cons g gs =>
      by_cases h : c == sep <;> simp [h]

theorem splitOnChar_no_sep (sep : Char) (l : List Char) (h : sep ∉ l) :
    splitOnChar sep l = [l] := by
  induction l with
  | nil => simp [splitOnChar]
  | cons c cs ih =>
    have hc : c ≠ sep := fun hcs => h (hcs ▸ List.mem_cons_self c cs)
    have hcs : sep ∉ cs := fun hm => h (List.mem_cons_of_mem c hm)
    simp only [splitOnChar, ih hcs]
    simp [beq_iff_eq, hc]

theorem splitOnChar_append (sep : Char) (l t : List Char) (h : sep ∉ l) :
    splitOnChar sep (l ++ sep :: t) = l :: splitOnChar sep t := by
  induction l with
  | nil =>
    simp only [List.nil_append, splitOnChar]
    cases ht : splitOnChar sep t with
    | nil => exact absurd ht (splitOnChar_ne_nil sep t)
    | cons g gs => simp
  | cons c cs ih =>
    have hc : c ≠ sep := fun hcs => h (hcs ▸ List.mem_cons_self c cs)
    have hcs : sep ∉ cs := fun hm => h (List.mem_cons_of_mem c hm)
    rw [List.cons_append, splitOnChar_cons, ih hcs]
    simp [beq_iff_eq, hc]

theorem splitOnChar_joinChar (sep : Char) :
    ∀ (ls : List (List Char)), ls ≠ [] → (∀ l ∈ ls, sep ∉ l) →
      splitOnChar sep (joinChar sep ls) = ls := by
  intro ls
  induction ls with
  | nil => intro h; exact absurd rfl h
  | cons l rest ih =>
    intro _ hmem
    cases rest with
    | nil =>
      simp only [joinChar]
      exact splitOnChar_no_sep sep l (hmem l (List.mem_cons_self l []))
    | cons l' rest' =>
      simp only [joinChar]
      rw [splitOnChar_append sep l _ (hmem l (List.mem_cons_self l _))]
      rw [ih (by simp) (fun x hx => hmem x (List.mem_cons_of_mem l hx))]

theorem goSplit_joinSlash (segs : List String) (hne : segs ≠ [])
    (hs : ∀ s ∈ segs, '/' ∉ s.data) : goSplit (joinSlash segs) = segs := by
  have hmapne : segs.map String.data ≠ [] := by
    intro h
    exact hne (List.map_eq_nil_iff.mp h)
  have hmem : ∀ l ∈ segs.map String.data, '/' ∉ l := by
    intro l hl
    obtain ⟨s, hsin, rfl⟩ := List.mem_map.mp hl
    exact hs s hsin
  show ((splitOnChar '/' (String.mk (joinChar '/' (segs.map String.data))).data).map String.mk) = segs
  have hdata : (String.mk (joinChar '/' (segs.map String.data))).data
      = joinChar '/' (segs.map String.data) := rfl
  rw [hdata, splitOnChar_joinChar '/' _ hmapne hmem, List.map_map]
  have : (String.mk ∘ String.data) = id := by
    funext s
    rfl
  rw [this, List.map_id]

theorem useVersionAttempt_notin_hpuMergeFx (v : String) (e : SyncCoreEnv) :
    Effect.useVersionAttempt v ∉ hpuMergeFx e := by
  unfold hpuMergeFx
  split <;> split <;> simp

theorem pullAttempt_notin_mqfpMergeFx (e : SyncCoreEnv) :
    Effect.pullAttempt ∉ mqfpMergeFx e := by
  unfold mqfpMergeFx
  split <;> split <;> simp

theorem pullAttempt_notin_mqFallbackPullCore (e : SyncCoreEnv) :
    Effect.pullAttempt ∉ (mqFallbackPullCore e).1 := by
  unfold mqFallbackPullCore
  split
  · exact pullAttempt_notin_mqfpMergeFx e
  · split
    · simp
    · split
      · split
        · split <;> simp [pullAttempt_notin_mqfpMergeFx e]
        · simp [pullAttempt_notin_mqfpMergeFx e]
      · exact pullAttempt_notin_mqfpMergeFx e

theorem pullAttempt_notin_mqFallbackPullFx (sf : Bool) (e : SyncCoreEnv) (ri co : Bool) :
    Effect.pullAttempt ∉ (mqFallbackPullFx sf e ri co).1 := by
  unfold mqFallbackPullFx
  split
  · simp
  · have hcore := pullAttempt_notin_mqFallbackPullCore e
    split
    all_goals rename_i heq
    · rw [heq] at hcore; exact hcore
    · rw [heq] at hcore; exact hcore
    · rw [heq] at hcore
      simp only [List.mem_append]
      intro hmem
      rcases hmem with hmem | hmem
      · exact hcore hmem
      · split at hmem <;> simp_all

theorem setPeersEndpointToProxy_disabled (cfg : GlobalCfg) (network : String)
    (ps : List PeerConfig) (h : cfg.proxyStatus = false) :
    SetPeersEndpointToProxy cfg network ps = ps := by
  simp [SetPeersEndpointToProxy, h]

theorem setPeersEndpointToProxy_no_entry (cfg : GlobalCfg) (network : String)
    (q : PeerConfig) (h : getPeer cfg network q.publicKey = none) :
    SetPeersEndpointToProxy cfg network [q] = [q] := by
  unfold SetPeersEndpointToProxy
  split
  · rfl
  · simp [h]

theorem setPeersEndpointToProxy_entry (cfg : GlobalCfg) (network : String)
    (p : PeerConfig) (conn : Conn) (hs : cfg.proxyStatus = true)
    (h : getPeer cfg network p.publicKey = some conn) :
    SetPeersEndpointToProxy cfg network [p] =
      [{ p with endpoint := conn.config.localConnAddr }] := by
  simp [SetPeersEndpointToProxy, hs, h]

theorem addNewPeer_success_shape (cfg : GlobalCfg) (iface lk network : String)
    (peer : PeerConfig) (isRelayed isExt isAtt : Bool)
    (relayTo startResult : Option GoUDPAddr) (ep : GoUDPAddr)
    (hep : peer.endpoint = some ep)
    (hsucc : (AddNewPeer cfg iface lk network peer isRelayed isExt isAtt
        relayTo startResult).2 = none) :
    ∃ (ipAddr : IP) (la : GoUDPAddr),
      startResult = some la ∧
      (isRelayed = true → ∃ rt, relayTo = some rt ∧ rt.ip = some ipAddr) ∧
      (isRelayed = false → ep.ip = some ipAddr) ∧
      getPeer (AddNewPeer cfg iface lk network peer isRelayed isExt isAtt
          relayTo startResult).1 network peer.publicKey = some
        { key := peer.publicKey
          isRelayed := isRelayed
          relayedEndpoint := relayTo
          isAttachedExtClient := isAtt
          config :=
            { localKey := lk
              remoteKey := peer.publicKey
              isExtClient := isExt
              persistentKeepalive := peer.persistentKeepalive.getD 25
              network := network
              peerEndpoint := some
                { ip := some ipAddr
                  port := if isExt && isAtt then ep.port else NmProxyPort }
              localConnAddr := some la } } ∧
      getPeerByHash (AddNewPeer cfg iface lk network peer isRelayed isExt isAtt
          relayTo startResult).1 peer.publicKey = some
        { interfaceName := iface
          peerKey := peer.publicKey
          isExtClient := isExt
          endpoint := some
            { ip := some ipAddr
              port := if isExt && isAtt then ep.port else NmProxyPort }
          isAttachedExtClient := isAtt
          localConnAddr := some la } ∧
      (AddNewPeer cfg iface lk network peer isRelayed isExt isAtt
          relayTo startResult).1.proxyStatus = cfg.proxyStatus := by
  unfold AddNewPeer at hsucc ⊢
  rw [hep] at hsucc ⊢
  cases isRelayed with
  | false =>
    cases hip : ep.ip with
    | none => simp [resolveUDPAddr, hip] at hsucc
    | some i =>
      cases hst : startResult with
      | none => simp [resolveUDPAddr, hip, hst] at hsucc
      | some la =>
        refine ⟨i, la, rfl, by simp, fun _ => hip ▸ rfl, ?_, ?_, ?_⟩ <;>
          cases isAtt <;>
            simp [resolveUDPAddr, hip, hst, getPeer, getPeerByHash, savePeer,
              savePeerByHash, saveExtClientInfo]
  | true =>
    cases hrt : relayTo with
    | none => simp [hrt] at hsucc
    | some rt =>
      cases hip : rt.ip with
      | none => simp [resolveUDPAddr, hrt, hip] at hsucc
      | some i =>
        cases hst : startResult with
        | none => simp [resolveUDPAddr, hrt, hip, hst] at hsucc
        | some la =>
          refine ⟨i, la, rfl, fun _ => ⟨rt, rfl, hip ▸ rfl⟩, by simp, ?_, ?_, ?_⟩ <;>
            cases isAtt <;>
              simp [resolveUDPAddr, hrt, hip, hst, getPeer, getPeerByHash, savePeer,
                savePeerByHash, saveExtClientInfo]

theorem isPrivate_not_loopback (ip : IP) (h : ip.isPrivate = true) :
    ip.isLoopback = false := by
  cases ip with
  | v4 a b c d =>
    simp only [IP.isPrivate, Bool.or_eq_true, Bool.and_eq_true, beq_iff_eq] at h
    simp only [IP.isLoopback, beq_eq_false_iff_ne, ne_eq]
    rcases h with h | ⟨h, _⟩ | ⟨h, _⟩ <;> omega
  | v6 bs =>
    simp only [IP.isPrivate, beq_iff_eq] at h
    simp only [IP.isLoopback, beq_eq_false_iff_ne, ne_eq]
    intro hbs
    subst hbs
    exact absurd h (by decide)

/-! ## Claim theorems -/

/-- C10: Topic parsing is total only on conforming topics: with fewer
than three slash-separated segments, `parseNetworkFromTopic` (and, with
fewer than four, `parseServerFromTopic`) indexes out of bounds — modelled
as `none`, the Go code panics — and `NodeUpdate` dies on that panic
before doing anything else; on a conforming slash-joined topic the
network is exactly the third segment and the server exactly the
fourth. -/
theorem topic_positional_parsing :
    (∀ topic : String, (goSplit topic).length < 3 → parseNetworkFromTopic topic = none) ∧
    (∀ topic : String, (goSplit topic).length < 4 → parseServerFromTopic topic = none) ∧
    (∀ e : NodeUpdateEnv, (goSplit e.topic).length < 3 →
      nodeUpdate e = [Effect.panicIndexOutOfRange]) ∧
    (∀ segs : List String, segs ≠ [] → (∀ s ∈ segs, '/' ∉ s.data) →
      parseNetworkFromTopic (joinSlash segs) = segs.get? 2 ∧
      parseServerFromTopic (joinSlash segs) = segs.get? 3) := by
  refine ⟨?_, ?_, ?_, ?_⟩
  · intro topic h
    exact List.get?_eq_none.mpr (by omega)
  · intro topic h
    exact List.get?_eq_none.mpr (by omega)
  · intro e h
    have hnone : parseNetworkFromTopic e.topic = none :=
      List.get?_eq_none.mpr (by omega)
    unfold nodeUpdate
    rw [hnone]
  · intro segs hne hs
    unfold parseNetworkFromTopic parseServerFromTopic
    rw [goSplit_joinSlash segs hne hs]
    exact ⟨rfl, rfl⟩

/-- C10 witness: a two-segment topic parses to no network, and on the
conforming four-segment topic "peers/host/netA/srv1" the network is the
third segment and the server the fourth. -/
theorem topic_positional_parsing_witness :
    parseNetworkFromTopic "a/b" = none ∧
    parseNetworkFromTopic (joinSlash ["peers", "host", "netA", "srv1"]) = some "netA" ∧
    parseServerFromTopic (joinSlash ["peers", "host", "netA", "srv1"]) = some "srv1" := by
  refine ⟨topic_positional_parsing.1 "a/b" (by decide), ?_, ?_⟩
  · rw [(topic_positional_parsing.2.2.2 ["peers", "host", "netA", "srv1"]
      (by decide) (by decide)).1]
    rfl
  · rw [(topic_positional_parsing.2.2.2 ["peers", "host", "netA", "srv1"]
      (by decide) (by decide)).2]
    rfl

/-- C1 counterexample: a peer-list update whose decrypted payload is
identical to the previously processed payload for the same network is
still fully applied — `HostPeerUpdate` has no payload-equality dedupe, so
the peer map is merged and the peer set reapplied to the interface. -/
theorem hostPeerUpdate_no_dedupe_counterexample :
    c1DupEnv.lastPayload = c1DupEnv.decrypted ∧
    Effect.updateHostPeers ∈ hostPeerUpdate c1DupEnv ∧
    Effect.setPeers true ∈ hostPeerUpdate c1DupEnv := by
  refine ⟨rfl, ?_, ?_⟩ <;> decide

/-- C1 (amended): the content-equality dedupe lives in `NodeUpdate`, not
in the peer-list-update handler: a node update whose decrypted payload
equals the cached payload for its network is dropped with no effects at
all — no registry mutation and no interface reconfiguration. -/
theorem nodeUpdate_dedupe_drops (e : NodeUpdateEnv) (d : String)
    (hp : (parseNetworkFromTopic e.topic).isSome = true)
    (hd : e.decrypted = some d) (hc : e.cachedLast = d) :
    nodeUpdate e = [] := by
  obtain ⟨net, hnet⟩ := Option.isSome_iff_exists.mp hp
  unfold nodeUpdate
  rw [hnet, hd]
  cases hpr : e.parsed with
  | none => rfl
  | some node =>
    have : (e.cachedLast == d) = true := by rw [hc]; exact beq_self_eq_true d
    simp [this]

/-- C1 witness: the amended dedupe theorem applied to a concrete
cache-hit node update. -/
theorem nodeUpdate_dedupe_drops_witness : nodeUpdate c1CacheHitEnv = [] :=
  nodeUpdate_dedupe_drops c1CacheHitEnv "same-node-payload" (by decide) rfl rfl

/-- C5: the delete branch of `NodeUpdate` calls
`strings.Contains("rpc error", err.Error())` with the arguments swapped,
so a genuine rpc error ("rpc error: node not found", which contains
"rpc error") is NOT tolerated — the handler surfaces it and aborts
without reporting the node deleted — while the unrelated message "error"
(a substring of "rpc error") IS tolerated.  The spec's tolerate-rpc-
errors reading is the evident intent; the code inverts it. -/
theorem nodeUpdate_leave_tolerance_swapped :
    strContains "rpc error: node not found" "rpc error" = true ∧
    nodeUpdate c5RpcEnv =
      [Effect.cacheInsert "netA" "payload5", Effect.unsubscribeNode,
       Effect.leaveNetwork "netA"] ∧
    strContains "error" "rpc error" = false ∧
    Effect.logNodeDeleted ∈ nodeUpdate c5SubEnv := by
  refine ⟨by decide, by decide, by decide, by decide⟩

/-- C2: every erroring `AddNewPeer` call — nil relay target when relayed,
endpoint address-resolution failure (nil IP), or datapath start failure —
returns the Proxy Registry unchanged: no network-keyed Connection, no
hash-keyed RemotePeer, no external-client metadata is saved on any
failure path, because all three saves sit after the last error return. -/
theorem addNewPeer_error_no_side_effects :
    (∀ (cfg : GlobalCfg) (iface lk network : String) (peer : PeerConfig)
        (isRelayed isExt isAtt : Bool) (relayTo startResult : Option GoUDPAddr),
      ((AddNewPeer cfg iface lk network peer isRelayed isExt isAtt
          relayTo startResult).2).isSome = true →
      (AddNewPeer cfg iface lk network peer isRelayed isExt isAtt
          relayTo startResult).1 = cfg) ∧
    (∀ (cfg : GlobalCfg) (iface lk network : String) (peer : PeerConfig)
        (isExt isAtt : Bool) (startResult : Option GoUDPAddr),
      ((AddNewPeer cfg iface lk network peer true isExt isAtt
          none startResult).2).isSome = true) ∧
    (∀ (cfg : GlobalCfg) (iface lk network : String) (peer : PeerConfig)
        (isExt isAtt : Bool) (relayTo startResult : Option GoUDPAddr) (ep : GoUDPAddr),
      peer.endpoint = some ep → ep.ip = none →
      ((AddNewPeer cfg iface lk network peer false isExt isAtt
          relayTo startResult).2).isSome = true) ∧
    (∀ (cfg : GlobalCfg) (iface lk network : String) (peer : PeerConfig)
        (isRelayed isExt isAtt : Bool) (relayTo : Option GoUDPAddr),
      ((AddNewPeer cfg iface lk network peer isRelayed isExt isAtt
          relayTo none).2).isSome = true) := by
  refine ⟨?_, ?_, ?_, ?_⟩
  · intro cfg iface lk network peer isRelayed isExt isAtt relayTo startResult h
    have key : (AddNewPeer cfg iface lk network peer isRelayed isExt isAtt
        relayTo startResult).1 = cfg ∨
        (AddNewPeer cfg iface lk network peer isRelayed isExt isAtt
          relayTo startResult).2 = none := by
      unfold AddNewPeer
      dsimp only
      repeat' split
      all_goals first | exact Or.inl rfl | exact Or.inr rfl
    rcases key with key | key
    · exact key
    · rw [key] at h
      simp at h
  · intro cfg iface lk network peer isExt isAtt startResult
    unfold AddNewPeer
    cases peer.endpoint with
    | none => rfl
    | some ep => rfl
  · intro cfg iface lk network peer isExt isAtt relayTo startResult ep hep hip
    unfold AddNewPeer
    rw [hep]
    simp [resolveUDPAddr, hip]
  · intro cfg iface lk network peer isRelayed isExt isAtt relayTo
    unfold AddNewPeer
    dsimp only
    repeat' split
    all_goals simp_all

/-- C2 witness: a relayed add with a nil relay target errors and leaves
the empty registry exactly as it was. -/
theorem addNewPeer_error_no_side_effects_witness :
    ((AddNewPeer regEmpty "netmaker" "LKEY" "net1" peerA true false false
        none (some localA)).2).isSome = true ∧
    (AddNewPeer regEmpty "netmaker" "LKEY" "net1" peerA true false false
        none (some localA)).1 = regEmpty := by
  have hsome := addNewPeer_error_no_side_effects.2.1 regEmpty "netmaker" "LKEY" "net1"
    peerA false false (some localA)
  exact ⟨hsome, addNewPeer_error_no_side_effects.1 regEmpty "netmaker" "LKEY" "net1"
    peerA true false false none (some localA) hsome⟩

/-- C7 counterexample: a successful add for a peer flagged as an attached
external client but not as an external client (`isAttachedExtClient =
true`, `isExtClient = false`) stores the proxy's well-known port, not the
peer's own advertised port 555: the source gates the own-port choice on
the conjunction `isExtClient && isAttachedExtClient` (peer.go:35), not on
the attached flag alone. -/
theorem addNewPeer_port_choice_counterexample :
    (AddNewPeer regEmpty "netmaker" "LKEY" "net1" peerA false false true
        none (some localA)).2 = none ∧
    peerA.endpoint = some { ip := some (IP.v4 1 2 3 4), port := 555 } ∧
    (getPeerByHash (AddNewPeer regEmpty "netmaker" "LKEY" "net1" peerA false false true
        none (some localA)).1 "AAA").map RemotePeer.endpoint =
      some (some { ip := some (IP.v4 1 2 3 4), port := NmProxyPort }) ∧
    NmProxyPort ≠ 555 := by
  refine ⟨rfl, rfl, rfl, by decide⟩

/-- C7 (amended): for every successful `AddNewPeer` call the endpoint
stored in both the network-keyed Connection and the hash-keyed RemotePeer
uses the peer's own advertised port exactly when the peer is flagged both
an external client and an attached external client (the proxy's
well-known port otherwise), and the relay target's IP exactly when the
peer is marked relayed (the peer's own advertised IP otherwise), keeping
the chosen port. -/
theorem addNewPeer_endpoint_resolution (cfg : GlobalCfg) (iface lk network : String)
    (peer : PeerConfig) (isRelayed isExt isAtt : Bool)
    (relayTo startResult : Option GoUDPAddr) (ep : GoUDPAddr)
    (hep : peer.endpoint = some ep)
    (hsucc : (AddNewPeer cfg iface lk network peer isRelayed isExt isAtt
        relayTo startResult).2 = none) :
    ∃ ipAddr : IP,
      (∃ conn, getPeer (AddNewPeer cfg iface lk network peer isRelayed isExt isAtt
          relayTo startResult).1 network peer.publicKey = some conn ∧
        conn.config.peerEndpoint = some
          { ip := some ipAddr
            port := if isExt && isAtt then ep.port else NmProxyPort }) ∧
      (∃ rp, getPeerByHash (AddNewPeer cfg iface lk network peer isRelayed isExt isAtt
          relayTo startResult).1 peer.publicKey = some rp ∧
        rp.endpoint = some
          { ip := some ipAddr
            port := if isExt && isAtt then ep.port else NmProxyPort }) ∧
      (isRelayed = true → ∃ rt, relayTo = some rt ∧ rt.ip = some ipAddr) ∧
      (isRelayed = false → ep.ip = some ipAddr) := by
  obtain ⟨ipAddr, la, _, hrel, hdir, hconn, hhash, _⟩ :=
    addNewPeer_success_shape cfg iface lk network peer isRelayed isExt isAtt
      relayTo startResult ep hep hsucc
  exact ⟨ipAddr, ⟨_, hconn, rfl⟩, ⟨_, hhash, rfl⟩, hrel, hdir⟩

/-- C7 witness: the amended endpoint characterization applied to a
concrete successful relayed add (relayed, external, not attached): the
stored endpoint must carry the relay target's IP with the proxy port. -/
theorem addNewPeer_endpoint_resolution_witness :
    (AddNewPeer regEmpty "netmaker" "LKEY" "net1" peerA true true false
        (some relayA) (some localA)).2 = none ∧
    ∃ ipAddr : IP,
      (∃ conn, getPeer (AddNewPeer regEmpty "netmaker" "LKEY" "net1" peerA true true false
          (some relayA) (some localA)).1 "net1" peerA.publicKey = some conn ∧
        conn.config.peerEndpoint = some
          { ip := some ipAddr
            port := if true && false then 555 else NmProxyPort }) ∧
      (∃ rp, getPeerByHash (AddNewPeer regEmpty "netmaker" "LKEY" "net1" peerA true true false
          (some relayA) (some localA)).1 peerA.publicKey = some rp ∧
        rp.endpoint = some
          { ip := some ipAddr
            port := if true && false then 555 else NmProxyPort }) ∧
      (true = true → ∃ rt, some relayA = some rt ∧ rt.ip = some ipAddr) ∧
      (true = false → ({ ip := some (IP.v4 1 2 3 4), port := 555 } : GoUDPAddr).ip
        = some ipAddr) :=
  ⟨rfl, addNewPeer_endpoint_resolution regEmpty "netmaker" "LKEY" "net1" peerA
    true true false (some relayA) (some localA)
    { ip := some (IP.v4 1 2 3 4), port := 555 } rfl rfl⟩

/-- C8: after a successful `AddNewPeer`, both the network-keyed and the
hash-keyed registries hold an entry for the peer, and
`SetPeersEndpointToProxy` for that network replaces that peer's endpoint
with the registered local proxy socket address when proxying is globally
enabled; when proxying is disabled, or for peers with no registry entry,
the peer list is returned unchanged. -/
theorem addNewPeer_registers_and_rewrites (cfg : GlobalCfg) (iface lk network : String)
    (peer : PeerConfig) (isRelayed isExt isAtt : Bool)
    (relayTo : Option GoUDPAddr) (la : GoUDPAddr) (ep : GoUDPAddr)
    (hep : peer.endpoint = some ep)
    (hsucc : (AddNewPeer cfg iface lk network peer isRelayed isExt isAtt
        relayTo (some la)).2 = none) :
    ∀ cfg2 : GlobalCfg,
      cfg2 = (AddNewPeer cfg iface lk network peer isRelayed isExt isAtt
        relayTo (some la)).1 →
      (∃ conn, getPeer cfg2 network peer.publicKey = some conn ∧
        conn.config.localConnAddr = some la) ∧
      (getPeerByHash cfg2 peer.publicKey).isSome = true ∧
      (cfg2.proxyStatus = true → ∀ p : PeerConfig, p.publicKey = peer.publicKey →
        SetPeersEndpointToProxy cfg2 network [p] = [{ p with endpoint := some la }]) ∧
      (cfg2.proxyStatus = false → ∀ ps : List PeerConfig,
        SetPeersEndpointToProxy cfg2 network ps = ps) ∧
      (∀ q : PeerConfig, getPeer cfg2 network q.publicKey = none →
        SetPeersEndpointToProxy cfg2 network [q] = [q]) := by
  intro cfg2 hcfg2
  obtain ⟨ipAddr, la', hla, _, _, hconn, hhash, _⟩ :=
    addNewPeer_success_shape cfg iface lk network peer isRelayed isExt isAtt
      relayTo (some la) ep hep hsucc
  obtain rfl : la = la' := by injection hla
  subst hcfg2
  refine ⟨⟨_, hconn, rfl⟩, by rw [hhash]; rfl, ?_, ?_, ?_⟩
  · intro hps p hkey
    rw [setPeersEndpointToProxy_entry _ _ p _ hps (by rw [hkey]; exact hconn)]
  · intro hps ps
    exact setPeersEndpointToProxy_disabled _ _ _ hps
  · intro q hq
    exact setPeersEndpointToProxy_no_entry _ _ _ hq

/-- C8 witness: a concrete successful add into the empty enabled
registry, with the rewrite producing the registered local proxy
address. -/
theorem addNewPeer_registers_and_rewrites_witness :
    (∃ conn, getPeer (AddNewPeer regEmpty "netmaker" "LKEY" "net1" peerA false true true
        none (some localA)).1 "net1" peerA.publicKey = some conn ∧
      conn.config.localConnAddr = some localA) ∧
    (getPeerByHash (AddNewPeer regEmpty "netmaker" "LKEY" "net1" peerA false true true
        none (some localA)).1 peerA.publicKey).isSome = true ∧
    ((AddNewPeer regEmpty "netmaker" "LKEY" "net1" peerA false true true
        none (some localA)).1.proxyStatus = true →
      ∀ p : PeerConfig, p.publicKey = peerA.publicKey →
        SetPeersEndpointToProxy (AddNewPeer regEmpty "netmaker" "LKEY" "net1" peerA
            false true true none (some localA)).1 "net1" [p] =
          [{ p with endpoint := some localA }]) ∧
    ((AddNewPeer regEmpty "netmaker" "LKEY" "net1" peerA false true true
        none (some localA)).1.proxyStatus = false →
      ∀ ps : List PeerConfig,
        SetPeersEndpointToProxy (AddNewPeer regEmpty "netmaker" "LKEY" "net1" peerA
            false true true none (some localA)).1 "net1" ps = ps) ∧
    (∀ q : PeerConfig,
      getPeer (AddNewPeer regEmpty "netmaker" "LKEY" "net1" peerA false true true
          none (some localA)).1 "net1" q.publicKey = none →
        SetPeersEndpointToProxy (AddNewPeer regEmpty "netmaker" "LKEY" "net1" peerA
            false true true none (some localA)).1 "net1" [q] = [q]) :=
  addNewPeer_registers_and_rewrites regEmpty "netmaker" "LKEY" "net1" peerA
    false true true none localA { ip := some (IP.v4 1 2 3 4), port := 555 } rfl rfl
    _ rfl

/-- C9: endpoint detection spawns a probe only for a private candidate
address, and therefore never for loopback, multicast, v6 link-local or
already-routed (allowed-IP-covered) addresses, never from a bridge
interface, and never for a peer flagged static (nor one without host
info, nor one already detected). -/
theorem endpointDetection_probe_conditions
    (det isBr : String → Bool) (peers : List PeerConfig)
    (pim : String → Option HostNetworkInfo) (p : Probe)
    (hmem : p ∈ handleEndpointDetection det isBr peers pim) :
    p.ip.isPrivate = true ∧
    p.ip.isLoopback = false ∧
    p.ip.isMulticast = false ∧
    (p.ip.isLinkLocalUnicast && p.ip.renderedWithColons) = false ∧
    isAddressInPeers p.ip (getAllAllowedIPs peers) = false ∧
    ∃ peer ∈ peers, peer.publicKey = p.publicKey ∧ det peer.publicKey = false ∧
      ∃ info, pim peer.publicKey = some info ∧ info.isStatic = false ∧
        p.listenPort = info.listenPort ∧
        ∃ ifc ∈ info.interfaces, ifc.addrIP = some p.ip ∧ isBr ifc.name = false := by
  unfold handleEndpointDetection at hmem
  rw [List.mem_flatMap] at hmem
  obtain ⟨peer, hpeer, hin⟩ := hmem
  by_cases hdet : det peer.publicKey = true
  · rw [if_pos hdet] at hin
    exact absurd hin (List.not_mem_nil p)
  · rw [if_neg hdet] at hin
    cases hpim : pim peer.publicKey with
    | none => rw [hpim] at hin; exact absurd hin (List.not_mem_nil p)
    | some info =>
      rw [hpim] at hin
      dsimp only at hin
      by_cases hstatic : info.isStatic = true
      · rw [if_pos hstatic] at hin
        exact absurd hin (List.not_mem_nil p)
      · rw [if_neg hstatic] at hin
        rw [List.mem_filterMap] at hin
        obtain ⟨ifc, hifc, hf⟩ := hin
        cases haddr : ifc.addrIP with
        | none => rw [haddr] at hf; cases hf
        | some ip =>
          rw [haddr] at hf
          dsimp only at hf
          by_cases hbr : isBr ifc.name = true
          · rw [if_pos hbr] at hf; cases hf
          · rw [if_neg hbr] at hf
            by_cases hskip : (ip.stringHas127Dot0Dot0 || ip.isMulticast ||
                (ip.isLinkLocalUnicast && ip.renderedWithColons) ||
                isAddressInPeers ip (getAllAllowedIPs peers)) = true
            · rw [if_pos hskip] at hf; cases hf
            · rw [if_neg hskip] at hf
              by_cases hpriv : ip.isPrivate = true
              · rw [if_pos hpriv] at hf
                injection hf with hf
                subst hf
                rw [Bool.or_eq_true, Bool.or_eq_true, Bool.or_eq_true] at hskip
                push_neg at hskip
                obtain ⟨⟨⟨_, hmc⟩, hll⟩, hrt⟩ := hskip
                refine ⟨hpriv, isPrivate_not_loopback ip hpriv,
                  Bool.eq_false_iff.mpr hmc, Bool.eq_false_iff.mpr hll,
                  Bool.eq_false_iff.mpr hrt,
                  peer, hpeer, rfl, Bool.eq_false_iff.mpr hdet, info, hpim,
                  Bool.eq_false_iff.mpr hstatic, rfl, ifc, hifc, haddr,
                  Bool.eq_false_iff.mpr hbr⟩
              · rw [if_neg hpriv] at hf; cases hf

/-- C9 witness: the probe-condition theorem applied to a concrete update
that does spawn a probe (one non-static peer with one private non-bridge
interface address). -/
theorem endpointDetection_probe_conditions_witness :
    c9Probe ∈ handleEndpointDetection oracleFalse oracleFalse c9Peers c9Pim ∧
    c9Probe.ip.isPrivate = true ∧ c9Probe.ip.isLoopback = false :=
  ⟨by decide,
   (endpointDetection_probe_conditions oracleFalse oracleFalse c9Peers c9Pim c9Probe
     (by decide)).1,
   (endpointDetection_probe_conditions oracleFalse oracleFalse c9Peers c9Pim c9Probe
     (by decide)).2.1⟩

/-- C3: a fallback tick does nothing when the control channel reports
connected (client non-nil, open and connected) or no coordinator is
configured; otherwise it makes exactly one pull attempt; the fallback
pull's version-check-and-merge code is extensionally identical to the
live peer-list update's (`mqFallbackPullCore = hostPeerUpdateCore`:
version check and persist, peer merge, config write, peer-set
application, egress routes, endpoint-detection spawn, firewall update);
and a successful pull whose application leaves the process alive is
followed by the control-channel re-establishment attempt (disconnect of
the stale client, then the mqtt setup), provided the coordinator's
server record is still found. -/
theorem mqFallback_tick_refines_peer_update :
    (∀ t : FallbackTickEnv,
      ((t.mqNonNil && t.mqConnOpen && t.mqConnected) || t.currServerEmpty) = true →
      mqFallbackTick t = []) ∧
    (∀ t : FallbackTickEnv,
      ((t.mqNonNil && t.mqConnOpen && t.mqConnected) || t.currServerEmpty) = false →
      (mqFallbackTick t).count Effect.pullAttempt = 1) ∧
    (∀ e : SyncCoreEnv, mqFallbackPullCore e = hostPeerUpdateCore e) ∧
    (∀ t : FallbackTickEnv,
      ((t.mqNonNil && t.mqConnOpen && t.mqConnected) || t.currServerEmpty) = false →
      t.pullOk = true → t.reconnectServerFound = true →
      (mqFallbackPullFx t.pullServerFound t.core t.resetInterface t.configureOk).2 = false →
      mqFallbackTick t =
        Effect.pullAttempt ::
          ((mqFallbackPullFx t.pullServerFound t.core t.resetInterface t.configureOk).1 ++
            ((if t.mqNonNil then [Effect.mqDisconnect] else []) ++ [Effect.setupMQTT]))) := by
  refine ⟨?_, ?_, ?_, ?_⟩
  · intro t h
    simp [mqFallbackTick, h]
  · intro t h
    unfold mqFallbackTick
    simp only [h, Bool.false_eq_true, if_false]
    rw [List.count_cons_self]
    have hrest : Effect.pullAttempt ∉
        (if !t.pullOk then []
         else
           let r := mqFallbackPullFx t.pullServerFound t.core t.resetInterface t.configureOk
           r.1 ++
             (if r.2 then []
              else if !t.reconnectServerFound then []
              else (if t.mqNonNil then [Effect.mqDisconnect] else []) ++
                [Effect.setupMQTT])) := by
      cases hp : t.pullOk with
      | false => simp
      | true =>
        simp only [Bool.not_true, Bool.false_eq_true, if_false]
        intro hmem
        rcases List.mem_append.mp hmem with hmem | hmem
        · exact pullAttempt_notin_mqFallbackPullFx _ _ _ _ hmem
        · split at hmem <;> simp_all
    rw [List.count_eq_zero.mpr hrest]
  · intro e
    rfl
  · intro t hguard hpull hrecon hdead
    unfold mqFallbackTick
    simp only [hguard, Bool.false_eq_true, if_false, hpull, Bool.not_true]
    rw [hdead]
    simp [hrecon]

/-- C3 witness: the tick theorem applied to a connected tick (no pull)
and to a disconnected tick with a configured coordinator and a
successful pull (exactly one pull, then reconnect). -/
theorem mqFallback_tick_refines_peer_update_witness :
    mqFallbackTick c3ConnectedEnv = [] ∧
    (mqFallbackTick c3TickEnv).count Effect.pullAttempt = 1 ∧
    mqFallbackPullCore c4CoreUpToDateEnv = hostPeerUpdateCore c4CoreUpToDateEnv ∧
    mqFallbackTick c3TickEnv =
      Effect.pullAttempt ::
        ((mqFallbackPullFx c3TickEnv.pullServerFound c3TickEnv.core
            c3TickEnv.resetInterface c3TickEnv.configureOk).1 ++
          ((if c3TickEnv.mqNonNil then [Effect.mqDisconnect] else []) ++
            [Effect.setupMQTT])) :=
  ⟨mqFallback_tick_refines_peer_update.1 c3ConnectedEnv rfl,
   mqFallback_tick_refines_peer_update.2.1 c3TickEnv rfl,
   mqFallback_tick_refines_peer_update.2.2.1 c4CoreUpToDateEnv,
   mqFallback_tick_refines_peer_update.2.2.2 c3TickEnv rfl rfl rfl (by decide)⟩

/-- C4: an inconclusive version comparison makes the host-update upgrade
branch proceed with the upgrade anyway (fail open), while the peer-list
update's version phase returns immediately (fail closed — the
`UseVersion` attempt and everything after it are skipped); a conclusive
"client not behind" comparison triggers no upgrade attempt in either
handler. -/
theorem version_comparison_policy :
    (∀ e : HostUpdateEnv, e.serverFound = true → e.payloadEmpty = false →
      e.decryptOk = true → e.parseOk = true → e.action = HostAction.upgrade →
      e.vltResult = none →
      Effect.useVersionAttempt e.storedServerVersion ∈ hostUpdate e) ∧
    (∀ e : SyncCoreEnv, (e.serverVersion == e.clientVersion) = false →
      e.vltResult = none → hostPeerUpdateCore e = ([], CoreOutcome.returned)) ∧
    (∀ e : HostUpdateEnv, e.action = HostAction.upgrade → e.vltResult = some false →
      ∀ v, Effect.useVersionAttempt v ∉ hostUpdate e) ∧
    (∀ e : SyncCoreEnv, e.vltResult = some false →
      ∀ v, Effect.useVersionAttempt v ∉ (hostPeerUpdateCore e).1) := by
  refine ⟨?_, ?_, ?_, ?_⟩
  · intro e h1 h2 h3 h4 h5 h6
    unfold hostUpdate hostUpdateBranch
    simp only [h1, h2, h3, h4, h5, h6, Bool.not_true, Bool.false_eq_true, if_false]
    repeat' split
    all_goals simp
  · intro e h1 h2
    unfold hostPeerUpdateCore
    simp [h1, h2]
  · intro e h1 h2 v
    unfold hostUpdate hostUpdateBranch
    simp only [h1, h2]
    repeat' split
    all_goals simp
  · intro e h v
    unfold hostPeerUpdateCore
    by_cases hv : (e.serverVersion == e.clientVersion) = true
    · simp [hv, useVersionAttempt_notin_hpuMergeFx v e]
    · simp only [Bool.not_eq_true] at hv
      simp [hv, h, useVersionAttempt_notin_hpuMergeFx v e]

/-- C4 witness: the policy theorem applied to concrete environments — an
inconclusive comparison makes the host-update upgrade proceed and the
peer-update version phase abort; a conclusive not-behind comparison
produces no upgrade attempt on either path. -/
theorem version_comparison_policy_witness :
    Effect.useVersionAttempt "v0.18.0" ∈ hostUpdate c4UpgradeEnv ∧
    hostPeerUpdateCore c4CoreEnv = ([], CoreOutcome.returned) ∧
    Effect.useVersionAttempt "v0.18.0" ∉ hostUpdate c4UpToDateEnv ∧
    Effect.useVersionAttempt "v0.18.0" ∉ (hostPeerUpdateCore c4CoreUpToDateEnv).1 :=
  ⟨version_comparison_policy.1 c4UpgradeEnv rfl rfl rfl rfl rfl rfl,
   version_comparison_policy.2.1 c4CoreEnv (by decide) rfl,
   version_comparison_policy.2.2.1 c4UpToDateEnv rfl rfl "v0.18.0",
   version_comparison_policy.2.2.2 c4CoreUpToDateEnv rfl "v0.18.0"⟩

/-- C6 counterexample: with every upgrade condition met (version differs,
comparison conclusively behind, auto-update on, `UseVersion` succeeded)
the handler calls the hard restart, but when that call fails and returns
(its error is discarded at this call site — there is no `return` after
it, unlike the claim's "no further local steps"), the very same
invocation goes on to persist the server version, merge peers, apply the
peer set and the rest of the merge tail. -/
theorem hostPeerUpdate_upgrade_counterexample :
    c6RestartReturnsEnv.vltResult = some true ∧
    c6RestartReturnsEnv.autoUpdate = true ∧
    c6RestartReturnsEnv.useVersionOk = true ∧
    Effect.hardRestart ∈ hostPeerUpdate c6RestartReturnsEnv ∧
    Effect.writeServerConfig ∈ hostPeerUpdate c6RestartReturnsEnv ∧
    Effect.updateHostPeers ∈ hostPeerUpdate c6RestartReturnsEnv ∧
    Effect.setPeers true ∈ hostPeerUpdate c6RestartReturnsEnv := by
  refine ⟨rfl, rfl, rfl, ?_, ?_, ?_, ?_⟩ <;> decide

/-- C6 (amended): when the server version differs, the comparison
conclusively reports the client behind, auto-update is enabled, the
in-place upgrade succeeds AND the hard restart terminates the process
(does not return), the invocation ends at the restart: no server-version
persist, no peer merge, no peer-set application, no endpoint detection,
no firewall update. -/
theorem hostPeerUpdate_upgrade_terminal (e : HostPeerEnv) (msg : PeerUpdateMsg)
    (h1 : e.nodesExist = true) (hp : (parseServerFromTopic e.topic).isSome = true)
    (h2 : e.serverFound = true) (h3 : e.decrypted.isSome = true)
    (h4 : e.parsed = some msg)
    (h5 : (msg.serverVersion == e.clientVersion) = false)
    (h6 : e.vltResult = some true) (h7 : e.autoUpdate = true)
    (h8 : e.useVersionOk = true) (h9 : e.hardRestartReturns = false) :
    hostPeerUpdate e =
      (if e.serverIsPro && e.tickerNonNil then [Effect.tickerReset] else []) ++
        [Effect.useVersionAttempt msg.serverVersion, Effect.hardRestart] := by
  obtain ⟨sname, hs⟩ := Option.isSome_iff_exists.mp hp
  obtain ⟨d, hd⟩ := Option.isSome_iff_exists.mp h3
  unfold hostPeerUpdate
  rw [h1, hs, h2, hd, h4]
  unfold hostPeerUpdateCore hostPeerEnvCore
  simp [h5, h6, h7, h8, h9]

/-- C6 witness: the amended theorem applied to a concrete environment in
which the hard restart terminates the process. -/
theorem hostPeerUpdate_upgrade_terminal_witness :
    hostPeerUpdate c6TerminalEnv =
      [Effect.tickerReset, Effect.useVersionAttempt "v0.19.0", Effect.hardRestart] := by
  have h := hostPeerUpdate_upgrade_terminal c6TerminalEnv
    { serverVersion := "v0.19.0", replacePeers := true, egressNonEmpty := false }
    rfl (by decide) rfl rfl rfl (by decide) rfl rfl rfl rfl
  simpa using h
